import Mathlib

/-!
Shallow embedding of the cross-platform track matching engine of
`playlist_tracker` (`src/lib/demo-playlists.ts`, track-matcher section:
`normalizeText`, `parseTrackTitle`, `similarity`, `matchTrack`,
`buildSearchQuery`, `matchTracks`), together with proofs settling the
frozen claims about it.

Strings are modelled as Lean `String`/`List Char`; JavaScript numbers are
modelled as exact rationals `ℚ` (all constants in the matcher are small
decimal fractions); the async/throwing search collaborator is modelled as
a function into `Except Unit (List Track)`; JavaScript truthiness of a
string is emptiness, of an optional number it is presence-and-nonzero.
JS regular expressions used by the query builder are modelled by bespoke
total functions, one per pattern, documented at each definition; `.` in a
JS regex does not match a newline and `\w`/`\s` are modelled by the ASCII
word/whitespace classes below.
-/

attribute [local semireducible] Rat.add Rat.mul Rat.inv Rat.sub Rat.ofScientific

namespace PlaylistTracker

/-- JS regex `\w`: ASCII word character. -/
def isWordChar (c : Char) : Bool := c.isAlpha || c.isDigit || c = '_'

/-- JS regex `\s` (whitespace class), ASCII part. -/
def isWs (c : Char) : Bool :=
  c = ' ' || c = '\t' || c = '\n' || c = '\r' || c = '\x0b' || c = '\x0c'

/-- Replace each maximal run of whitespace by a single space
(the `.replace(/\s+/g, " ")` step of `normalizeText`); the flag records
whether the scan is inside a run whose space was already emitted. -/
def collapseWsA : Bool → List Char → List Char
  | _, [] => []
  | inRun, c :: cs =>
    if isWs c then
      if inRun then collapseWsA true cs else ' ' :: collapseWsA true cs
    else c :: collapseWsA false cs

def collapseWs (l : List Char) : List Char := collapseWsA false l

/-- JS `String.prototype.trim` (drop whitespace at both ends). -/
def trimWs (l : List Char) : List Char :=
  ((l.dropWhile isWs).reverse.dropWhile isWs).reverse

def strTrim (s : String) : String := ⟨trimWs s.toList⟩

/-- Function `normalizeText` (track-matcher): lowercase, strip every character that
is neither a word character nor whitespace, collapse whitespace runs,
trim. -/
def normalizeText (text : String) : String :=
  ⟨trimWs (collapseWs ((text.toList.map Char.toLower).filter
      (fun c => isWordChar c || isWs c)))⟩

/-- JS `hay.includes(sub)`: substring containment. -/
def includesSub : List Char → List Char → Bool
  | [], sub => sub.isEmpty
  | c :: t, sub => sub.isPrefixOf (c :: t) || includesSub t sub

/-- Fuelled worker for `splitOnNE`; each step consumes one unit of fuel
and at least one character, so fuel equal to the list length never runs
out. -/
def splitOnFuel (s0 : Char) (sepRest : List Char) : Nat → List Char → List (List Char)
  | _, [] => [[]]
  | 0, l => [l]
  | fuel + 1, c :: cs =>
    if (s0 :: sepRest).isPrefixOf (c :: cs) then
      [] :: splitOnFuel s0 sepRest fuel (cs.drop sepRest.length)
    else
      match splitOnFuel s0 sepRest fuel cs with
      | t :: ts => (c :: t) :: ts
      | [] => [[c]]

/-- JS `String.prototype.split` with a non-empty literal separator
`s0 :: sepRest`, applied to a character list: leftmost, non-overlapping. -/
def splitOnNE (s0 : Char) (sepRest : List Char) (l : List Char) : List (List Char) :=
  splitOnFuel s0 sepRest l.length l

/-- Words of a normalized string: `s.split(" ")` as in `similarity`. -/
def wordsOf (s : String) : List String :=
  (splitOnNE ' ' [] s.toList).map fun l => (⟨l⟩ : String)

/-- Function `similarity` (track-matcher lines 429-441): 1 on equal normalized
strings, 0.8 when one normalized string contains the other, else the
number of entries of the first string's word list that occur in the
second string's word list, divided by the larger word count. -/
def similarity (str1 str2 : String) : ℚ :=
  let s1 := normalizeText str1
  let s2 := normalizeText str2
  if s1 = s2 then 1
  else if includesSub s1.toList s2.toList || includesSub s2.toList s1.toList then 0.8
  else
    let words1 := wordsOf s1
    let words2 := wordsOf s2
    let commonWords := words1.filter fun w => words2.contains w
    (commonWords.length : ℚ) / ((max words1.length words2.length : ℕ) : ℚ)

structure ParsedTitle where
  artist : String
  title : String
deriving DecidableEq, Repr

/-- The separators tried by `parseTrackTitle`, in source order. -/
def parseSeparators : List (Char × List Char) :=
  [(' ', ['-', ' ']), (' ', ['–', ' ']), (' ', ['—', ' ']), (' ', ['|', ' '])]

def parseTitleGo (title : String) : List (Char × List Char) → ParsedTitle
  | [] => ⟨"", strTrim title⟩
  | (s0, sr) :: rest =>
    match splitOnNE s0 sr title.toList with
    | [p0, p1] => ⟨strTrim ⟨p0⟩, strTrim ⟨p1⟩⟩
    | _ => parseTitleGo title rest

/-- Function `parseTrackTitle` (track-matcher lines 405-424): the first separator
among `" - "`, `" – "`, `" — "`, `" | "` that splits the title into
exactly two parts yields `(artist, title)` trimmed; otherwise artist is
empty and the whole trimmed title is returned. -/
def parseTrackTitle (title : String) : ParsedTitle :=
  parseTitleGo title parseSeparators

/-- Enum `type Platform = "youtube" | "spotify" | "apple" | "amazon"`. -/
inductive Platform where
  | youtube
  | spotify
  | apple
  | amazon
deriving DecidableEq, Repr

/-- Interface `Track` (`playlist-fetcher.ts`): `artist` is a required string (may be
empty), `duration`/`album`/`thumbnail` are optional. -/
structure Track where
  id : String
  title : String
  artist : String
  duration : Option ℚ := none
  album : Option String := none
  thumbnail : Option String := none
  platform : Platform
  originalId : String
deriving DecidableEq, Repr

/-- The confidence tiers of a `MatchResult`. -/
inductive Confidence where
  | high
  | medium
  | low
  | none
deriving DecidableEq, Repr

/-- Interface `MatchResult` (track-matcher lines 381-388); `undefined` optional
fields are `Option.none`. -/
structure MatchResult where
  sourceTrack : Track
  matchedTrack : Option Track
  confidence : Confidence
  matchReason : Option String := none
  suggestions : Option (List Track) := none
  allCandidates : Option (List Track) := none
deriving DecidableEq, Repr

/-- The `MatchResult` literal `{sourceTrack, matchedTrack: null,
confidence: "none"}` pushed by several branches. -/
def mkNoneResult (t : Track) : MatchResult :=
  { sourceTrack := t, matchedTrack := Option.none, confidence := Confidence.none }

/-- Truthiness of `track.duration` (an optional JS number): present and
nonzero. -/
def durTruthy : Option ℚ → Bool
  | Option.none => false
  | some d => d ≠ 0

/-- The duration bonus of `matchTrack` (lines 490-498): +0.15 when both
durations are truthy and differ by at most 10 seconds, +0.05 when they
differ by at most 30 seconds. -/
def durationBonus (sd cd : Option ℚ) : ℚ :=
  match sd, cd with
  | some s, some c =>
    if s ≠ 0 ∧ c ≠ 0 then
      if |s - c| ≤ 10 then 0.15 else if |s - c| ≤ 30 then 0.05 else 0
    else 0
  | _, _ => 0

/-- The cumulative score of one candidate (lines 483-503) as a function of
the component scores: weighted title/artist similarity (weights 0.6/0.4
when the source artist is present, 0.9/0.1 otherwise), plus the duration
bonus, plus a 0.1 title-dominance bonus when `titleScore > 0.85` and
`artistScore < 0.5`. -/
def candidateScore (hasArtist : Bool) (durB tS aS : ℚ) : ℚ :=
  tS * (if hasArtist then 0.6 else 0.9) + aS * (if hasArtist then 0.4 else 0.1)
    + durB + (if tS > 0.85 ∧ aS < 0.5 then 0.1 else 0)

/-- The reason string chosen when a candidate becomes the running best
(lines 509-517). -/
def matchReasonOf (tS aS : ℚ) : String :=
  if tS > 0.9 ∧ aS > 0.9 then "Exact match"
  else if tS > 0.8 ∧ aS > 0.7 then "High similarity"
  else if tS > 0.6 then "Title match"
  else "Partial match"

/-- The confidence thresholds applied to the best cumulative score
(lines 521-532). -/
def classifyScore (bestScore : ℚ) : Confidence :=
  if bestScore ≥ 0.7 then Confidence.high
  else if bestScore ≥ 0.5 then Confidence.medium
  else if bestScore ≥ 0.3 then Confidence.low
  else Confidence.none

/-- Source artist/title used for scoring (lines 459-467): for an
artist-less YouTube source track the title is parsed, otherwise the
fields are used as-is. -/
def sourceFields (t : Track) : ParsedTitle :=
  if t.platform = Platform.youtube ∧ t.artist = "" then parseTrackTitle t.title
  else ⟨t.artist, t.title⟩

def candTitleScore (sTitle : String) (cand : Track) : ℚ :=
  similarity sTitle cand.title

/-- Component `artistScore` (lines 478-480): similarity when both artists are
truthy, else 0. -/
def candArtistScore (sArtist : String) (cand : Track) : ℚ :=
  if sArtist ≠ "" ∧ cand.artist ≠ "" then similarity sArtist cand.artist else 0

/-- One candidate's cumulative score against a source track. -/
def candScore (src : Track) (sf : ParsedTitle) (cand : Track) : ℚ :=
  candidateScore (sf.artist ≠ "") (durationBonus src.duration cand.duration)
    (candTitleScore sf.title cand) (candArtistScore sf.artist cand)

/-- The running state of the candidate loop of `matchTrack`. -/
structure BestState where
  bestMatch : Option Track
  bestScore : ℚ
  matchReason : String
deriving DecidableEq, Repr

/-- The candidate loop of `matchTrack` (lines 473-519): a strictly greater
score replaces the running best (first-seen wins on ties). -/
def bestFold (src : Track) (sf : ParsedTitle) : BestState → List Track → BestState
  | st, [] => st
  | st, c :: cs =>
    let score := candScore src sf c
    bestFold src sf
      (if score > st.bestScore then
        ⟨some c, score, matchReasonOf (candTitleScore sf.title c) (candArtistScore sf.artist c)⟩
      else st) cs

/-- The best cumulative score reached by the candidate loop. -/
def bestScoreOf (src : Track) (candidates : List Track) : ℚ :=
  (bestFold src (sourceFields src) ⟨Option.none, 0, ""⟩ candidates).bestScore

/-- Function `matchTrack` (track-matcher lines 446-541). -/
def matchTrack (sourceTrack : Track) (candidates : List Track) : MatchResult :=
  if candidates = [] then mkNoneResult sourceTrack
  else
    let sf := sourceFields sourceTrack
    let st := bestFold sourceTrack sf ⟨Option.none, 0, ""⟩ candidates
    let confidence := classifyScore st.bestScore
    let bestMatch := if st.bestScore < 0.3 then Option.none else st.bestMatch
    { sourceTrack := sourceTrack
      matchedTrack := bestMatch
      confidence := confidence
      matchReason := if bestMatch.isSome then some st.matchReason else Option.none
      suggestions := Option.none
      allCandidates := some candidates }

/-! ### Query builder (`buildSearchQuery`, lines 634-675)

Each JS `replace` is modelled by one function.  A non-global `replace`
removes the leftmost match only; `.` never matches a newline; `$` is
end-of-input; lazy groups take the shortest extension that lets the rest
of the pattern match. -/

/-- Scan for the first `']'`, failing on a newline (the lazy `.*?\]`);
returns the remainder after the `']'`. -/
def afterRBracket : List Char → Option (List Char)
  | [] => Option.none
  | c :: cs =>
    if c = ']' then some cs else if c = '\n' then Option.none else afterRBracket cs

/-- Step `title.replace(/^\[.*?\]\s*\/, "")` — drop one leading bracketed tag
and the whitespace after it. -/
def stripLeadingBracket (l : List Char) : List Char :=
  match l with
  | '[' :: rest =>
    match afterRBracket rest with
    | some tail => tail.dropWhile isWs
    | Option.none => l
  | _ => l

/-- Does `\(.*?\)\s*$` match with the `(` right before this list: some
later `)` (no newline before it) followed only by whitespace? -/
def closeParenThenWsEnd : List Char → Bool
  | [] => false
  | c :: cs =>
    if c = '\n' then false
    else (c = ')' && cs.all isWs) || closeParenThenWsEnd cs

/-- Index of the first `(` from which `\(.*?\)\s*$` matches. -/
def firstValidParenIdx : List Char → Option Nat
  | [] => Option.none
  | c :: cs =>
    if c = '(' && closeParenThenWsEnd cs then some 0
    else (firstValidParenIdx cs).map (· + 1)

def dropTrailingWs (l : List Char) : List Char :=
  (l.reverse.dropWhile isWs).reverse

/-- Step `title.replace(/\s*\(.*?\)\s*$/, "")` — remove a trailing
parenthesized group (and everything to the end, which is whitespace). -/
def stripTrailingParen (l : List Char) : List Char :=
  match firstValidParenIdx l with
  | Option.none => l
  | some p => dropTrailingWs (l.take p)

def lowerList (l : List Char) : List Char := l.map Char.toLower

def officialL : List Char := "official".toList

/-- After a `-`: does `\s*Official.*$` (case-insensitive) match to the end
of the string? -/
def dashOfficialTail (cs : List Char) : Bool :=
  let w := cs.dropWhile isWs
  officialL.isPrefixOf (lowerList w) && (w.drop 8).all (· ≠ '\n')

def firstValidDashIdx : List Char → Option Nat
  | [] => Option.none
  | c :: cs =>
    if c = '-' && dashOfficialTail cs then some 0
    else (firstValidDashIdx cs).map (· + 1)

/-- Step `title.replace(/\s*-\s*Official.*$/i, "")`. -/
def stripDashOfficialEnd (l : List Char) : List Char :=
  match firstValidDashIdx l with
  | Option.none => l
  | some d => dropTrailingWs (l.take d)

/-- Find the first case-insensitive occurrence of `w` (which the lazy `.*?`
must reach without crossing a newline); returns the remainder after it. -/
def afterWordNoNl (w : List Char) : List Char → Option (List Char)
  | [] => Option.none
  | c :: cs =>
    if w.isPrefixOf (lowerList (c :: cs)) then some ((c :: cs).drop w.length)
    else if c = '\n' then Option.none
    else afterWordNoNl w cs

/-- Find the first `)` (again reached by a lazy `.*?`, so no newline may
precede it); returns the remainder after it. -/
def afterCloseParenNoNl : List Char → Option (List Char)
  | [] => Option.none
  | c :: cs =>
    if c = ')' then some cs else if c = '\n' then Option.none
    else afterCloseParenNoNl cs

/-- Try `\(.*?W.*?\)` with the `(` at the head of the list; returns the
remainder after the `)`. -/
def parenWordMatch (w : List Char) : List Char → Option (List Char)
  | '(' :: rest =>
    match afterWordNoNl w rest with
    | some afterW => afterCloseParenNoNl afterW
    | Option.none => Option.none
  | _ => Option.none

/-- Leftmost match of `\s*\(.*?W.*?\)`: returns the text before and after
the match. -/
def stripParenWordGo (w : List Char) : List Char → Option (List Char × List Char)
  | [] => Option.none
  | c :: cs =>
    match parenWordMatch w ((c :: cs).dropWhile isWs) with
    | some rest => some ([], rest)
    | Option.none => (stripParenWordGo w cs).map fun pr => (c :: pr.1, pr.2)

/-- Step `title.replace(/\s*\(.*?W.*?\)/i, "")` for `W` one of `Official`,
`Lyrics`, `Audio` (non-global: first match only). -/
def stripParenWord (w : List Char) (l : List Char) : List Char :=
  match stripParenWordGo w l with
  | Option.none => l
  | some pr => pr.1 ++ pr.2

/-- The `'[' :: mid ++ ']'` match used by the global bracket strip; returns
the remainder after the `]`. -/
def bracketMatch : List Char → Option (List Char)
  | '[' :: rest => afterRBracket rest
  | _ => Option.none

/-- Fuelled worker for `stripBracketsG`: a successful `bracketMatch`
always consumes at least one character, so fuel equal to the list length
never runs out. -/
def stripBracketsFuel : Nat → List Char → List Char
  | _, [] => []
  | 0, l => l
  | fuel + 1, c :: cs =>
    match bracketMatch ((c :: cs).dropWhile isWs) with
    | some rest => stripBracketsFuel fuel rest
    | Option.none => c :: stripBracketsFuel fuel cs

/-- Step `title.replace(/\s*\[.*?\]/g, "")` — global removal of bracketed
groups with their leading whitespace, scanning left to right. -/
def stripBracketsG (l : List Char) : List Char := stripBracketsFuel l.length l

/-- The title-cleaning pipeline of `buildSearchQuery` (lines 636-648):
trim, strip leading bracket, trailing paren group, `- Official...`,
`(..Official..)`, `(..Lyrics..)`, `(..Audio..)`, all brackets, trim. -/
def cleanTitleChars (l : List Char) : List Char :=
  trimWs (stripBracketsG (stripParenWord "audio".toList
    (stripParenWord "lyrics".toList (stripParenWord "official".toList
      (stripDashOfficialEnd (stripTrailingParen (stripLeadingBracket (trimWs l))))))))

/-- Step `artist.replace(/\s*-\s*Topic$/i, "")`: strip a trailing `- Topic`. -/
def stripDashTopicEnd (l : List Char) : List Char :=
  let r := l.reverse
  if ("cipot".toList).isPrefixOf (lowerList r) then
    let r1 := (r.drop 5).dropWhile isWs
    match r1 with
    | '-' :: r2 => (r2.dropWhile isWs).reverse
    | _ => l
  else l

/-- Step `artist.replace(/\s*VEVO$/i, "")`: strip a trailing `VEVO`. -/
def stripVevoEnd (l : List Char) : List Char :=
  let r := l.reverse
  if ("ovev".toList).isPrefixOf (lowerList r) then
    ((r.drop 4).dropWhile isWs).reverse
  else l

/-- Index of the first case-insensitive `Official` after which `.*$`
reaches the end of the string (no newline). -/
def firstOfficialIdx : List Char → Option Nat
  | [] => Option.none
  | c :: cs =>
    if officialL.isPrefixOf (lowerList (c :: cs)) && ((c :: cs).drop 8).all (· ≠ '\n')
    then some 0
    else (firstOfficialIdx cs).map (· + 1)

/-- Step `artist.replace(/\s*Official.*$/i, "")`. -/
def stripOfficialEnd (l : List Char) : List Char :=
  match firstOfficialIdx l with
  | Option.none => l
  | some i => dropTrailingWs (l.take i)

/-- The artist-cleaning pipeline of `buildSearchQuery` (lines 637,
651-655): trim, strip `- Topic`, `VEVO`, `Official...`, trim. -/
def cleanArtistChars (l : List Char) : List Char :=
  trimWs (stripOfficialEnd (stripVevoEnd (stripDashTopicEnd (trimWs l))))

def cleanedTitle (t : Track) : String := ⟨cleanTitleChars t.title.toList⟩

def cleanedArtist (t : Track) : String := ⟨cleanArtistChars t.artist.toList⟩

/-- Function `buildSearchQuery` (lines 634-675): for Spotify and YouTube,
`"{artist} {title}"` when both cleaned parts are nonempty, else the
cleaned title when nonempty; every other case falls through to
`return title || ""`. -/
def buildSearchQuery (track : Track) (platform : Platform) : String :=
  let title := cleanedTitle track
  let artist := cleanedArtist track
  if (platform = Platform.spotify ∨ platform = Platform.youtube)
      ∧ artist ≠ "" ∧ title ≠ "" then
    artist ++ " " ++ title
  else if (platform = Platform.spotify ∨ platform = Platform.youtube) ∧ title ≠ "" then
    title
  else if title ≠ "" then title
  else ""

/-! ### Session runner (`matchTracks`, lines 680-970)

The external search collaborator (`searchTracks` with the destination
platform and access token fixed) is modelled as a function from the query
string to `Except Unit (List Track)`; `Except.error` models a thrown
exception. -/

/-- The injected search collaborator. -/
def SearchFun : Type := String → Except Unit (List Track)

/-- Truthiness check `sourceTrack.artist && sourceTrack.artist.trim() && sourceTrack.artist
!== "Unknown Artist"` (lines 726, 819, 887). -/
def artistUsable (t : Track) : Bool :=
  t.artist ≠ "" && strTrim t.artist ≠ "" && t.artist ≠ "Unknown Artist"

/-- Whitespace-run split `s.split(/\s+/)` (keeps boundary empties, as JS
does); the flag records being inside a run whose boundary was already
emitted. -/
def splitWsA : Bool → List Char → List (List Char)
  | _, [] => [[]]
  | inRun, c :: cs =>
    if isWs c then
      if inRun then splitWsA true cs else [] :: splitWsA true cs
    else
      match splitWsA false cs with
      | t :: ts => (c :: t) :: ts
      | [] => [[c]]

def splitWsList (l : List Char) : List (List Char) := splitWsA false l

def splitWsStr (s : String) : List String :=
  (splitWsList s.toList).map fun l => (⟨l⟩ : String)

/-- Line 766/792: `simpleQuery.split(/\s+/).filter(w => w.length >
3).slice(0, 3).join(" ")`. -/
def keywordQuery (simpleQuery : String) : String :=
  String.intercalate " " (((splitWsStr simpleQuery).filter fun w => w.length > 3).take 3)

/-- Lines 859/871: `sourceTrack.title.split(/\s+/).slice(0, 5).join(" ")`. -/
def titleOnlyQuery (title : String) : String :=
  String.intercalate " " ((splitWsStr title).take 5)

def platformStr : Platform → String
  | Platform.youtube => "youtube"
  | Platform.spotify => "spotify"
  | Platform.apple => "apple"
  | Platform.amazon => "amazon"

/-- Suggestion de-duplication by the `` `${s.id}-${s.platform}` `` key
(lines 919-925). -/
def dedupeGo (seen : List String) : List Track → List Track
  | [] => []
  | t :: ts =>
    let key := t.id ++ "-" ++ platformStr t.platform
    if seen.contains key then dedupeGo seen ts
    else t :: dedupeGo (key :: seen) ts

/-- Stable insert of a scored candidate after every earlier candidate
with a greater-or-equal score. -/
def insertDesc (x : Track × ℚ) : List (Track × ℚ) → List (Track × ℚ)
  | [] => [x]
  | y :: ys => if y.2 ≥ x.2 then y :: insertDesc x ys else x :: y :: ys

/-- JS `.sort((a, b) => b.titleSim - a.titleSim)`: a stable sort by
descending score (JS `Array.prototype.sort` is stable), realized as a
stable insertion sort. -/
def sortDescBySim (l : List (Track × ℚ)) : List (Track × ℚ) :=
  l.foldl (fun acc x => insertDesc x acc) []

/-- The artist-search filter (lines 732-741 and twins): attach the title
similarity of each candidate (against the normalized source title), keep
similarity `> 0.3`, stable-sort descending. -/
def filterByTitleSim (sourceTitle : String) (artistCandidates : List Track) : List Track :=
  let titleNormalized := normalizeText sourceTitle
  (sortDescBySim ((artistCandidates.map fun c =>
      (c, similarity titleNormalized (normalizeText c.title))).filter
      fun p => p.2 > 0.3)).map (·.1)

/-- JS `a || "literal"` on an optional string (line 911). -/
def jsOrStr : Option String → String → String
  | some s, d => if s = "" then d else s
  | Option.none, d => d

/-- Lines 730-763 and 823-856: after a successful artist-only search,
match against the filtered candidates; either way the raw artist results
(capped to 5) become suggestions.  Returns the recorded result and the
`matchedCount` increment. -/
def afterArtistSearch (t : Track) (artistCandidates : List Track) : MatchResult × Nat :=
  let filtered := filterByTitleSim t.title artistCandidates
  if filtered ≠ [] then
    let m := matchTrack t filtered
    ({ m with suggestions := some (artistCandidates.take 5) },
     if m.matchedTrack.isSome then 1 else 0)
  else
    ({ mkNoneResult t with suggestions := some (artistCandidates.take 5) }, 0)

/-- Lines 765-789 and 791-815: keyword-subset search.  A thrown search
error propagates to the enclosing `catch`. -/
def wordsStage (search : SearchFun) (t : Track) (simpleQuery : String) :
    Except Unit (MatchResult × Nat) :=
  let words := keywordQuery simpleQuery
  if words ≠ "" ∧ words ≠ simpleQuery then
    match search words with
    | Except.error e => Except.error e
    | Except.ok wordCandidates =>
      let m := matchTrack t wordCandidates
      Except.ok ({ m with suggestions := some (wordCandidates.take 5) },
        if m.matchedTrack.isSome then 1 else 0)
  else
    Except.ok ({ mkNoneResult t with suggestions := some [] }, 0)

/-- Lines 857-867 and 869-880: suggestion-only search on the first five
title words. -/
def titleOnlyStage (search : SearchFun) (t : Track) :
    Except Unit (MatchResult × Nat) :=
  match search (titleOnlyQuery t.title) with
  | Except.error e => Except.error e
  | Except.ok suggestionCandidates =>
    Except.ok ({ mkNoneResult t with suggestions := some (suggestionCandidates.take 5) }, 0)

/-- Lines 725-789: artist-only stage tried when the simplified-title
search returned nothing; falls back to the keyword stage. -/
def artistStageA (search : SearchFun) (t : Track) (simpleQuery : String) :
    Except Unit (MatchResult × Nat) :=
  match search (strTrim t.artist) with
  | Except.error e => Except.error e
  | Except.ok artistCandidates =>
    if artistCandidates ≠ [] then Except.ok (afterArtistSearch t artistCandidates)
    else wordsStage search t simpleQuery

/-- Lines 818-868: artist-only stage tried when no simplified-title query
was available; falls back to the suggestion-only title search. -/
def artistStageB (search : SearchFun) (t : Track) :
    Except Unit (MatchResult × Nat) :=
  match search (strTrim t.artist) with
  | Except.error e => Except.error e
  | Except.ok artistCandidates =>
    if artistCandidates ≠ [] then Except.ok (afterArtistSearch t artistCandidates)
    else titleOnlyStage search t

/-- Lines 904-914: when the filtered artist candidates produce a match,
its `matchedTrack`, `confidence` and (`||`-defaulted) `matchReason`
supersede the primary result; returns the updated result and the local
`matchedCount` increment. -/
def supersedeMatch (t : Track) (m0 : MatchResult) (filtered : List Track) :
    MatchResult × Nat :=
  if filtered ≠ [] then
    let artistMatch := matchTrack t filtered
    if artistMatch.matchedTrack.isSome then
      ({ m0 with
          matchedTrack := artistMatch.matchedTrack
          confidence := artistMatch.confidence
          matchReason :=
            some (jsOrStr artistMatch.matchReason "Matched by artist + title comparison") }, 1)
    else (m0, 0)
  else (m0, 0)

/-- The post-search part of the primary branch (lines 904-938): apply the
supersede step, merge and deduplicate suggestions from the artist search,
then fill suggestions from the primary candidates when still unmatched,
and add the final `matchedCount` increment. -/
def primaryCombine (t : Track) (m0 : MatchResult) (candidates ac : List Track) :
    MatchResult × Nat :=
  let md := supersedeMatch t m0 (filterByTitleSim t.title ac)
  let m1 := { md.1 with
    suggestions := some ((dedupeGo [] (md.1.suggestions.getD [] ++ ac.take 5)).take 5) }
  let m2 := if m1.matchedTrack = Option.none ∧ candidates ≠ [] then
      { m1 with suggestions := some (candidates.take 5) }
    else m1
  (m2, md.2 + (if m2.matchedTrack.isSome then 1 else 0))

/-- The primary branch when the artist fallback is not entered (primary
match present, or artist unusable, or artist search empty): only the
still-unmatched suggestion fill and the final increment happen. -/
def primaryPlain (t : Track) (m0 : MatchResult) (candidates : List Track) :
    MatchResult × Nat :=
  let m2 := if m0.matchedTrack = Option.none ∧ candidates ≠ [] then
      { m0 with suggestions := some (candidates.take 5) }
    else m0
  (m2, if m2.matchedTrack.isSome then 1 else 0)

/-- Lines 883-938: the primary-candidates branch, including the
artist-only supersede fallback, suggestion merging/deduplication, and the
final `matchedCount` increment. -/
def primaryStage (search : SearchFun) (t : Track) (candidates : List Track) :
    Except Unit (MatchResult × Nat) :=
  let m0 := matchTrack t candidates
  if m0.matchedTrack = Option.none ∧ artistUsable t then
    match search (strTrim t.artist) with
    | Except.error e => Except.error e
    | Except.ok ac =>
      if ac ≠ [] then Except.ok (primaryCombine t m0 candidates ac)
      else Except.ok (primaryPlain t m0 candidates)
  else Except.ok (primaryPlain t m0 candidates)

/-- The body of the per-track `try` block of `matchTracks` (lines
706-950), given the primary query: returns the recorded `MatchResult` and
the total `matchedCount` increment, or `Except.error` when any search
call throws. -/
def processTrack (search : SearchFun) (t : Track) (query : String) :
    Except Unit (MatchResult × Nat) :=
  match search query with
  | Except.error e => Except.error e
  | Except.ok candidates =>
    if candidates = [] then
      let simpleQuery := strTrim t.title
      if simpleQuery ≠ "" ∧ simpleQuery ≠ query then
        match search simpleQuery with
        | Except.error e => Except.error e
        | Except.ok fallbackCandidates =>
          if fallbackCandidates ≠ [] then
            let m := matchTrack t fallbackCandidates
            Except.ok (m, if m.matchedTrack.isSome then 1 else 0)
          else if artistUsable t then artistStageA search t simpleQuery
          else wordsStage search t simpleQuery
      else if artistUsable t then artistStageB search t
      else titleOnlyStage search t
    else primaryStage search t candidates

/-- Outcome of one loop iteration of `matchTracks`: the recorded result,
the `matchedCount` increment, whether the `catch` branch ran, and whether
`onProgress` fires for this track. -/
structure StepOut where
  result : MatchResult
  matchedDelta : Nat
  isError : Bool
  emits : Bool
deriving Repr

/-- One iteration of the `matchTracks` loop for one source track: an empty
query is recorded as `none` without searching (and without progress); a
thrown search error is caught, recorded as `none` and counted (also
without progress). -/
def stepTrack (search : SearchFun) (platform : Platform) (t : Track) : StepOut :=
  let query := buildSearchQuery t platform
  if query = "" then ⟨mkNoneResult t, 0, false, false⟩
  else
    match processTrack search t query with
    | Except.ok rd => ⟨rd.1, rd.2, false, true⟩
    | Except.error _ => ⟨mkNoneResult t, 0, true, false⟩

/-- A progress event `{current, total, matched}` passed to `onProgress`. -/
structure ProgressEvent where
  current : Nat
  total : Nat
  matched : Nat
deriving DecidableEq, Repr

/-- The observable outcome of a matching session: the ordered results,
the final counters, and the progress events in emission order. -/
structure SessionOut where
  results : List MatchResult
  matchedCount : Nat
  errorCount : Nat
  events : List ProgressEvent
deriving Repr

/-- The loop of `matchTracks` over the remaining tracks, carrying the
0-based index and the running counters. -/
def runLoop (search : SearchFun) (platform : Platform) :
    List Track → Nat → Nat → Nat → Nat → SessionOut
  | [], _, _, matched, errors => ⟨[], matched, errors, []⟩
  | t :: ts, i, total, matched, errors =>
    let s := stepTrack search platform t
    let matched' := matched + s.matchedDelta
    let errors' := errors + (if s.isError then 1 else 0)
    let rest := runLoop search platform ts (i + 1) total matched' errors'
    ⟨s.result :: rest.results, rest.matchedCount, rest.errorCount,
      (if s.emits then [⟨i + 1, total, matched'⟩] else []) ++ rest.events⟩

/-- Function `matchTracks` (lines 680-970), with the rate-limiting pause and
console logging elided as unobservable. -/
def matchTracks (search : SearchFun) (platform : Platform)
    (sourceTracks : List Track) : SessionOut :=
  runLoop search platform sourceTracks 0 sourceTracks.length 0 0

/-! ### Definitions following the spec's words (for refinement claims) -/

/-- Modelled from the spec (§4.4, claim C5): the first separator that
splits the title into exactly two NON-EMPTY parts; otherwise the
fallback.  Used to compare the claimed behaviour with `parseTrackTitle`. -/
def parseTitleSpec (title : String) : ParsedTitle :=
  match parseSeparators.findSome? (fun sep =>
      match splitOnNE sep.1 sep.2 title.toList with
      | [p0, p1] =>
        if p0 ≠ [] ∧ p1 ≠ [] then some (ParsedTitle.mk (strTrim ⟨p0⟩) (strTrim ⟨p1⟩))
        else Option.none
      | _ => Option.none) with
  | some r => r
  | Option.none => ⟨"", strTrim title⟩

/-- Modelled from the amended claim C5: the first separator that splits
the title into exactly two parts, empty or not. -/
def parseTitleSpecAmended (title : String) : ParsedTitle :=
  match parseSeparators.findSome? (fun sep =>
      match splitOnNE sep.1 sep.2 title.toList with
      | [p0, p1] => some (ParsedTitle.mk (strTrim ⟨p0⟩) (strTrim ⟨p1⟩))
      | _ => Option.none) with
  | some r => r
  | Option.none => ⟨"", strTrim title⟩

/-- Modelled from the spec (§4.2, claim C6): word-overlap counted on the
shorter string's word-SET (distinct words), denominator
`max(len(words1), len(words2))`. -/
def similaritySpec (a b : String) : ℚ :=
  let s1 := normalizeText a
  let s2 := normalizeText b
  if s1 = s2 then 1
  else if includesSub s1.toList s2.toList || includesSub s2.toList s1.toList then 0.8
  else
    let words1 := wordsOf s1
    let words2 := wordsOf s2
    let shorter := if words1.length ≤ words2.length then words1 else words2
    let other := if words1.length ≤ words2.length then words2 else words1
    ((shorter.dedup.filter fun w => other.contains w).length : ℚ)
      / ((max words1.length words2.length : ℕ) : ℚ)

/-- Modelled from the amended claim C6: entries of the FIRST string's word
list (with multiplicity) that occur in the second string's word list. -/
def similarityAmendedSpec (a b : String) : ℚ :=
  let s1 := normalizeText a
  let s2 := normalizeText b
  if s1 = s2 then 1
  else if includesSub s1.toList s2.toList || includesSub s2.toList s1.toList then 0.8
  else
    ((wordsOf s1).countP (fun w => (wordsOf s2).contains w) : ℚ)
      / ((max (wordsOf s1).length (wordsOf s2).length : ℕ) : ℚ)

/-- The condition under which the artist-only fallback inside the primary
branch supersedes a `none` primary result (lines 887-913), given the
primary candidates: this is exactly the path on which `matchedCount` is
incremented twice for one track. -/
def primSuperseded (search : SearchFun) (t : Track) (candidates : List Track) : Bool :=
  (matchTrack t candidates).matchedTrack = Option.none && artistUsable t &&
    match search (strTrim t.artist) with
    | Except.ok ac =>
      ac ≠ [] && (matchTrack t (filterByTitleSim t.title ac)).matchedTrack.isSome
    | Except.error _ => false

/-- The supersede condition as seen from the primary query. -/
def querySuperseded (search : SearchFun) (t : Track) (query : String) : Bool :=
  match search query with
  | Except.error _ => false
  | Except.ok candidates =>
    if candidates = [] then false else primSuperseded search t candidates

/-- Whether one track of a session takes the double-counted supersede
path. -/
def fallbackSuperseded (search : SearchFun) (platform : Platform) (t : Track) : Bool :=
  let query := buildSearchQuery t platform
  if query = "" then false else querySuperseded search t query

/-- Modelled from the amended claim C9: the reference progress-event
stream.  One event per track that is neither skipped for an empty query
nor aborted by a caught search error, carrying the 1-based index, the
total, and a running counter that adds 1 for a recorded result with a
present `matchedTrack` plus 1 more when the track took the supersede
path. -/
def eventsSpecGo (search : SearchFun) (platform : Platform) (total : Nat) :
    List Track → Nat → Nat → List ProgressEvent
  | [], _, _ => []
  | t :: ts, i, m =>
    let s := stepTrack search platform t
    let m' := m + ((if s.result.matchedTrack.isSome then 1 else 0)
      + (if fallbackSuperseded search platform t then 1 else 0))
    (if buildSearchQuery t platform ≠ "" ∧ s.isError = false then [⟨i + 1, total, m'⟩] else [])
      ++ eventsSpecGo search platform total ts (i + 1) m'

/-! ### Concrete fixtures used by witnesses and counterexamples -/

/-- A source track whose primary search will throw. -/
def tErr : Track := ⟨"t3", "Crash", "Band", Option.none, Option.none, Option.none,
  Platform.youtube, "t3"⟩

/-- A well-behaved source track. -/
def tOk (i : String) : Track := ⟨i, "Song", "Band", Option.none, Option.none, Option.none,
  Platform.youtube, i⟩

/-- The candidate every non-throwing query returns. -/
def candSong : Track := ⟨"c1", "Song", "Band", Option.none, Option.none, Option.none,
  Platform.spotify, "c1"⟩

/-- A collaborator that throws exactly for `tErr`'s primary query. -/
def oracle3 : SearchFun := fun q =>
  if q = "Band Crash" then Except.error () else Except.ok [candSong]

/-- The five-track session of claim C3: only track #3 throws. -/
def tracks5 : List Track := [tOk "t1", tOk "t2", tErr, tOk "t4", tOk "t5"]

/-- Supersede scenario: source track whose primary candidates miss. -/
def srcSup : Track := ⟨"s", "aaa", "bbb", Option.none, Option.none, Option.none,
  Platform.spotify, "s"⟩

/-- A primary candidate with no textual overlap with `srcSup`. -/
def candBad : Track := ⟨"cb", "zzz qqq ww", "yyy", Option.none, Option.none, Option.none,
  Platform.spotify, "cb"⟩

/-- The artist-only candidate that matches `srcSup` exactly. -/
def candGood : Track := ⟨"cg", "aaa", "bbb", Option.none, Option.none, Option.none,
  Platform.spotify, "cg"⟩

/-- Collaborator for the supersede scenario: the primary query returns
only `candBad`, the artist-only query returns `candGood`. -/
def oracleSup : SearchFun := fun q =>
  if q = "bbb aaa" then Except.ok [candBad]
  else if q = "bbb" then Except.ok [candGood]
  else Except.ok []

/-- A punctuation-only-titled, artist-less source track (claim C10). -/
def srcPunct : Track := ⟨"s", "?!?", "", Option.none, Option.none, Option.none,
  Platform.spotify, "s"⟩

/-- An ordinary candidate for the C10 scenario. -/
def candHello : Track := ⟨"c", "hello", "x", Option.none, Option.none, Option.none,
  Platform.spotify, "c"⟩

/-- The claim C7 fixture `{title: "Song [Official Video]", artist: "Band -
Topic"}`. -/
def trNoise : Track := ⟨"t", "Song [Official Video]", "Band - Topic", Option.none,
  Option.none, Option.none, Platform.youtube, "t"⟩

/-- A plain two-field track used for the C7 counterexample. -/
def trPlain : Track := ⟨"t", "Song", "Band", Option.none, Option.none, Option.none,
  Platform.youtube, "t"⟩

/-- Numeric value of a confidence tier, `none < low < medium < high`. -/
def confVal : Confidence → Nat
  | Confidence.none => 0
  | Confidence.low => 1
  | Confidence.medium => 2
  | Confidence.high => 3

/-! ### Helper lemmas -/

theorem includesSub_nil (hay : List Char) : includesSub hay [] = true := by
  cases hay <;> rfl

theorem toList_ne_nil {s : String} (h : s ≠ "") : s.toList ≠ [] := by
  intro hl
  apply h
  cases s with
  | mk data =>
    have : data = [] := hl
    rw [this]

theorem similarity_empty_left {a b : String} (ha : normalizeText a = "")
    (hb : normalizeText b ≠ "") : similarity a b = 0.8 := by
  unfold similarity
  rw [ha]
  have h1 : ¬ ("" = normalizeText b) := fun h => hb h.symm
  have h2 : (includesSub ("" : String).toList (normalizeText b).toList
      || includesSub (normalizeText b).toList ("" : String).toList) = true := by
    rw [show ("" : String).toList = [] from rfl, includesSub_nil, Bool.or_true]
  rw [if_neg h1, if_pos h2]

theorem classifyScore_ne_none {b : ℚ} (h : (0.3 : ℚ) ≤ b) :
    classifyScore b ≠ Confidence.none := by
  unfold classifyScore
  by_cases h7 : b ≥ 0.7
  · rw [if_pos h7]; simp
  · rw [if_neg h7]
    by_cases h5 : b ≥ 0.5
    · rw [if_pos h5]; simp
    · rw [if_neg h5, if_pos (show b ≥ 0.3 from h)]; simp

theorem classifyScore_none_of_lt {b : ℚ} (h : b < 0.3) :
    classifyScore b = Confidence.none := by
  unfold classifyScore
  rw [if_neg (by intro h'; exact absurd h (not_lt.mpr (by linarith))),
    if_neg (by intro h'; exact absurd h (not_lt.mpr (by linarith))),
    if_neg (by intro h'; exact absurd h (not_lt.mpr (by linarith)))]

theorem matchTrack_confidence (s : Track) (c : List Track) :
    (matchTrack s c).confidence = classifyScore (bestScoreOf s c) := by
  unfold matchTrack bestScoreOf
  split
  · next h =>
    subst h
    show Confidence.none = classifyScore (bestFold s (sourceFields s) ⟨Option.none, 0, ""⟩ []).bestScore
    show Confidence.none = classifyScore 0
    decide
  · rfl

theorem matchTrack_none_inv (s : Track) (c : List Track)
    (h : (matchTrack s c).confidence = Confidence.none) :
    (matchTrack s c).matchedTrack = Option.none := by
  by_cases hc : c = []
  · simp [matchTrack, hc, mkNoneResult]
  · unfold matchTrack at h ⊢
    rw [if_neg hc] at h ⊢
    simp only at h ⊢
    by_cases hlt : (bestFold s (sourceFields s) ⟨Option.none, 0, ""⟩ c).bestScore < 0.3
    · simp [hlt]
    · exact absurd h (classifyScore_ne_none (not_lt.mp hlt))

theorem matchTrack_some_conf {s : Track} {c : List Track}
    (h : (matchTrack s c).matchedTrack.isSome = true) :
    (matchTrack s c).confidence ≠ Confidence.none := by
  intro hn
  rw [matchTrack_none_inv s c hn] at h
  cases h

/-! Claim theorems.  Each claim of CLAIMS.json gets exactly one theorem
below (with a witness or counterexample where required). -/

/-- Claim C5, counterexample: the title parser accepts a separator that
splits the title into two parts even when one part is empty, while the
claimed rule (first separator giving two NON-empty parts, modelled by
`parseTitleSpec`) would skip it: on `" - Hello"` the code returns
`{artist: "", title: "Hello"}` but the claimed rule returns
`{artist: "", title: "- Hello"}`. -/
theorem C5_counterexample :
    parseTrackTitle " - Hello" = ⟨"", "Hello"⟩ ∧
    parseTitleSpec " - Hello" = ⟨"", "- Hello"⟩ ∧
    parseTrackTitle " - Hello" ≠ parseTitleSpec " - Hello" := by
  refine ⟨by decide, by decide, by decide⟩

theorem parseTitleGo_eq_findSome (title : String) (seps : List (Char × List Char)) :
    parseTitleGo title seps = (match seps.findSome? (fun sep =>
      match splitOnNE sep.1 sep.2 title.toList with
      | [p0, p1] => some (ParsedTitle.mk (strTrim ⟨p0⟩) (strTrim ⟨p1⟩))
      | _ => Option.none) with
    | some r => r
    | Option.none => ⟨"", strTrim title⟩) := by
  induction seps with
  | nil => rfl
  | cons sep rest ih =>
    obtain ⟨s0, sr⟩ := sep
    rw [parseTitleGo, List.findSome?_cons]
    rcases h : splitOnNE s0 sr title.toList with _ | ⟨p0, _ | ⟨p1, _ | _⟩⟩ <;>
      simp only [h, ih]

/-- Claim C5, amended: the title parser tries the separators `" - "`,
`" – "`, `" — "`, `" | "` in order; the first separator that splits the
title into exactly two parts (NOT necessarily non-empty) yields artist =
first part trimmed and title = second part trimmed, and if no separator
produces exactly two parts it returns artist `""` and the whole title
trimmed; in particular `parseTitle("Artist - Title")` gives
`{artist: "Artist", title: "Title"}` and `parseTitle("Just A Title")`
gives `{artist: "", title: "Just A Title"}`. -/
theorem C5_parse_title :
    (∀ title : String, parseTrackTitle title = parseTitleSpecAmended title) ∧
    parseTrackTitle "Artist - Title" = ⟨"Artist", "Title"⟩ ∧
    parseTrackTitle "Just A Title" = ⟨"", "Just A Title"⟩ := by
  refine ⟨fun title => ?_, by decide, by decide⟩
  rw [parseTrackTitle, parseTitleSpecAmended, parseTitleGo_eq_findSome]

/-- Claim C6, counterexample: the token/substring scorer counts the first
argument's words with multiplicity, not the shorter string's word-set: on
`("a a x y", "a b c d")` the code returns `2/4 = 1/2` while the claimed
set-based rule (modelled by `similaritySpec`) returns `1/4`. -/
theorem C6_counterexample :
    similarity "a a x y" "a b c d" = 1/2 ∧
    similaritySpec "a a x y" "a b c d" = 1/4 ∧
    similarity "a a x y" "a b c d" ≠ similaritySpec "a a x y" "a b c d" := by
  refine ⟨by decide, by decide, by decide⟩

/-- Claim C6, amended: for all strings `a`, `b`, `similarity` normalizes
both inputs and returns 1.0 when the normalized strings are equal, 0.8
when one normalized string is a substring of the other, and otherwise the
number of entries of the FIRST string's word list (with multiplicity)
that also appear in the second string's word list, divided by
`max(len(words1), len(words2))`. -/
theorem C6_similarity :
    ∀ a b : String, similarity a b = similarityAmendedSpec a b := by
  intro a b
  unfold similarity similarityAmendedSpec
  simp only [List.countP_eq_length_filter]

/-- Claim C7, counterexample: for the destination platforms `apple` and
`amazon` the query builder ignores the artist even when both cleaned
parts are nonempty: `buildQuery({title: "Song", artist: "Band"}, apple)`
is `"Song"`, not `"Band Song"`. -/
theorem C7_counterexample :
    cleanedArtist trPlain = "Band" ∧ cleanedTitle trPlain = "Song" ∧
    buildSearchQuery trPlain Platform.apple = "Song" ∧
    buildSearchQuery trPlain Platform.apple ≠ "Band Song" := by
  refine ⟨by decide, by decide, by decide, by decide⟩

/-- Claim C7, amended: for the destination platforms `spotify` and
`youtube` the query builder cleans the title and artist of the documented
noise patterns and returns `"{cleanedArtist} {cleanedTitle}"` when both
are non-empty, just the cleaned title when the artist is empty after
cleaning, and the empty string when the cleaned title is empty; for
`apple` and `amazon` it returns just the cleaned title; in particular
`buildQuery({title: "Song [Official Video]", artist: "Band - Topic"},
"spotify")` returns `"Band Song"`. -/
theorem C7_build_query :
    (∀ (tr : Track) (p : Platform), p = Platform.spotify ∨ p = Platform.youtube →
      (cleanedArtist tr ≠ "" ∧ cleanedTitle tr ≠ "" →
        buildSearchQuery tr p = cleanedArtist tr ++ " " ++ cleanedTitle tr) ∧
      (cleanedArtist tr = "" → buildSearchQuery tr p = cleanedTitle tr) ∧
      (cleanedTitle tr = "" → buildSearchQuery tr p = "")) ∧
    (∀ (tr : Track) (p : Platform), p = Platform.apple ∨ p = Platform.amazon →
      buildSearchQuery tr p = cleanedTitle tr) ∧
    buildSearchQuery trNoise Platform.spotify = "Band Song" := by
  refine ⟨fun tr p hp => ⟨fun h => ?_, fun h => ?_, fun h => ?_⟩,
    fun tr p hp => ?_, by decide⟩
  · rw [buildSearchQuery, if_pos ⟨hp, h.1, h.2⟩]
  · by_cases ht : cleanedTitle tr = ""
    · rw [buildSearchQuery, if_neg (by simp [ht]), if_neg (by simp [ht]),
        if_neg (by simp [ht]), ht]
    · rw [buildSearchQuery, if_neg (by simp [h]), if_pos ⟨hp, ht⟩]
  · rw [buildSearchQuery, if_neg (by simp [h]), if_neg (by simp [h]), if_neg (by simp [h])]
  · have hps : ¬ (p = Platform.spotify ∨ p = Platform.youtube) := by
      rcases hp with h | h <;> subst h <;> simp
    by_cases ht : cleanedTitle tr = ""
    · rw [buildSearchQuery, if_neg (by simp [hps]), if_neg (by simp [hps]),
        if_neg (by simp [ht]), ht]
    · rw [buildSearchQuery, if_neg (by simp [hps]), if_neg (by simp [hps]), if_pos ht]

/-- Claim C7 witness: the amended theorem applied to the concrete track
`{title: "Song", artist: "Band"}` on Spotify. -/
theorem C7_witness :
    buildSearchQuery trPlain Platform.spotify = cleanedArtist trPlain ++ " " ++ cleanedTitle trPlain :=
  ((C7_build_query.1 trPlain Platform.spotify (Or.inl rfl)).1 ⟨by decide, by decide⟩)

/-- Claim C2: `matchTrack` assigns the confidence tier from the best
cumulative candidate score by the thresholds `≥ 0.7 → high`, `≥ 0.5 →
medium`, `≥ 0.3 → low`, below `0.3 → none` with the tentative
`matchedTrack` discarded and `matchReason` cleared; in particular a best
score of exactly 0.70 classifies as high, 0.699 medium, 0.50 medium,
0.499 low, 0.30 low, and 0.299 none (with `matchedTrack` absent by the
discard clause). -/
theorem C2_thresholds :
    (∀ (s : Track) (c : List Track),
      (matchTrack s c).confidence = classifyScore (bestScoreOf s c) ∧
      (bestScoreOf s c < 0.3 → (matchTrack s c).matchedTrack = Option.none ∧
        (matchTrack s c).matchReason = Option.none)) ∧
    classifyScore 0.7 = Confidence.high ∧ classifyScore 0.699 = Confidence.medium ∧
    classifyScore 0.5 = Confidence.medium ∧ classifyScore 0.499 = Confidence.low ∧
    classifyScore 0.3 = Confidence.low ∧ classifyScore 0.299 = Confidence.none := by
  refine ⟨fun s c => ⟨matchTrack_confidence s c, fun hlt => ?_⟩,
    by decide, by decide, by decide, by decide, by decide, by decide⟩
  by_cases hc : c = []
  · simp [matchTrack, hc, mkNoneResult]
  · have hm : (matchTrack s c).matchedTrack = Option.none := by
      unfold matchTrack
      rw [if_neg hc]
      simp only
      rw [if_pos (by exact hlt)]
    refine ⟨hm, ?_⟩
    unfold matchTrack at hm ⊢
    rw [if_neg hc] at hm ⊢
    simp only at hm ⊢
    rw [hm]
    rfl

/-- Claim C2 witness: the discard clause of the theorem evaluated on a
concrete source/candidate pair whose best score is 0 (no textual
overlap). -/
theorem C2_witness :
    (matchTrack srcSup [candBad]).matchedTrack = Option.none ∧
    (matchTrack srcSup [candBad]).matchReason = Option.none :=
  (C2_thresholds.1 srcSup [candBad]).2 (by decide)

theorem bestFold_no_improve (src : Track) (sf : ParsedTitle) (cs : List Track)
    (st : BestState) (h : ∀ c ∈ cs, candScore src sf c ≤ st.bestScore) :
    bestFold src sf st cs = st := by
  induction cs with
  | nil => rfl
  | cons c cs ih =>
    rw [bestFold]
    rw [if_neg (not_lt.mpr (h c (List.mem_cons_self c cs)))]
    exact ih fun c' hc' => h c' (List.mem_cons_of_mem c hc')

theorem candScore_empty_title (src c : Track)
    (hsrc : normalizeText src.title = "") (hc : normalizeText c.title ≠ "")
    (hd : durTruthy src.duration = false) :
    candScore src ⟨"", src.title⟩ c = 0.72 := by
  unfold candScore candTitleScore candArtistScore
  rw [similarity_empty_left hsrc hc]
  have hdb : durationBonus src.duration c.duration = 0 := by
    cases hsd : src.duration with
    | none => cases c.duration <;> rfl
    | some d =>
      rw [hsd] at hd
      have hd0 : d = 0 := by simpa [durTruthy] using hd
      subst hd0
      cases c.duration with
      | none => rfl
      | some x => simp [durationBonus]
  rw [hdb]
  norm_num [candidateScore]

/-- Claim C10: for every string whose normalization is empty paired with
one whose normalization is non-empty, `similarity` returns 0.8 (the empty
string is a substring of every string); consequently `matchTrack` scores
every candidate of such an artist-less source track at `0.8 * 0.9 =
0.72`, matching the first candidate with confidence high. -/
theorem C10_empty_normalization :
    (∀ a b : String, normalizeText a = "" → normalizeText b ≠ "" →
      similarity a b = 0.8) ∧
    (∀ (src c0 : Track) (cs : List Track),
      src.platform ≠ Platform.youtube → src.artist = "" →
      normalizeText src.title = "" → durTruthy src.duration = false →
      normalizeText c0.title ≠ "" → (∀ c ∈ cs, normalizeText c.title ≠ "") →
      bestScoreOf src (c0 :: cs) = 0.72 ∧
      (matchTrack src (c0 :: cs)).matchedTrack = some c0 ∧
      (matchTrack src (c0 :: cs)).confidence = Confidence.high) := by
  refine ⟨fun a b ha hb => similarity_empty_left ha hb,
    fun src c0 cs hp ha ht hd hc0 hcs => ?_⟩
  have hsf : sourceFields src = ⟨"", src.title⟩ := by
    unfold sourceFields
    rw [if_neg (fun h => hp h.1), ha]
  have h0 : candScore src ⟨"", src.title⟩ c0 = 0.72 :=
    candScore_empty_title src c0 ht hc0 hd
  have hfold : bestFold src ⟨"", src.title⟩ ⟨Option.none, 0, ""⟩ (c0 :: cs) =
      ⟨some c0, candScore src ⟨"", src.title⟩ c0,
        matchReasonOf (candTitleScore src.title c0) (candArtistScore "" c0)⟩ := by
    rw [bestFold]
    rw [if_pos (by rw [h0]; norm_num)]
    exact bestFold_no_improve src ⟨"", src.title⟩ cs _
      (fun c hc => by rw [candScore_empty_title src c ht (hcs c hc) hd]; simp [h0])
  have hb : bestScoreOf src (c0 :: cs) = 0.72 := by
    rw [bestScoreOf, hsf, hfold, h0]
  refine ⟨hb, ?_, ?_⟩
  · unfold matchTrack
    rw [if_neg (List.cons_ne_nil c0 cs)]
    simp only
    rw [hsf, hfold, h0]
    rw [if_neg (by norm_num)]
  · rw [matchTrack_confidence, hb]
    decide

/-- Claim C10 witness: both parts at a concrete punctuation-only source
title. -/
theorem C10_witness :
    similarity "?!?" "hello" = 0.8 ∧
    (matchTrack srcPunct [candHello]).matchedTrack = some candHello ∧
    (matchTrack srcPunct [candHello]).confidence = Confidence.high :=
  ⟨C10_empty_normalization.1 "?!?" "hello" (by decide) (by decide),
    (C10_empty_normalization.2 srcPunct candHello [] (by decide) rfl (by decide) rfl
      (by decide) (by simp)).2⟩

/-! Invariant plumbing for claim C1 and the session-level claims. -/

/-- The C1 invariant as a predicate on recorded results. -/
def ResultInv (r : MatchResult) : Prop :=
  r.confidence = Confidence.none → r.matchedTrack = Option.none

theorem inv_mkNone (t : Track) : ResultInv (mkNoneResult t) := fun _ => rfl

theorem inv_sugg {m : MatchResult} (h : ResultInv m) (sg : Option (List Track)) :
    ResultInv { m with suggestions := sg } := h

theorem inv_afterArtist (t : Track) (ac : List Track) :
    ResultInv (afterArtistSearch t ac).1 := by
  unfold afterArtistSearch
  dsimp only
  split
  · exact inv_sugg (matchTrack_none_inv t _) _
  · exact inv_sugg (inv_mkNone t) _

theorem inv_supersede (t : Track) (m0 : MatchResult) (f : List Track)
    (h0 : ResultInv m0) : ResultInv (supersedeMatch t m0 f).1 := by
  unfold supersedeMatch
  split
  · dsimp only
    split
    · next hsome =>
      intro hconf
      exact absurd hconf (matchTrack_some_conf hsome)
    · exact h0
  · exact h0

theorem inv_primaryCombine (t : Track) (m0 : MatchResult) (candidates ac : List Track)
    (h0 : ResultInv m0) : ResultInv (primaryCombine t m0 candidates ac).1 := by
  unfold primaryCombine
  dsimp only
  split
  · exact inv_sugg (inv_sugg (inv_supersede t m0 _ h0) _) _
  · exact inv_sugg (inv_supersede t m0 _ h0) _

theorem inv_primaryPlain (t : Track) (m0 : MatchResult) (candidates : List Track)
    (h0 : ResultInv m0) : ResultInv (primaryPlain t m0 candidates).1 := by
  unfold primaryPlain
  dsimp only
  split
  · exact inv_sugg h0 _
  · exact h0

theorem inv_wordsStage {search : SearchFun} {t : Track} {sq : String}
    {rd : MatchResult × Nat} (h : wordsStage search t sq = Except.ok rd) :
    ResultInv rd.1 := by
  unfold wordsStage at h
  dsimp only at h
  split at h
  · split at h
    · cases h
    · injection h with h2
      subst h2
      exact inv_sugg (matchTrack_none_inv t _) _
  · injection h with h2
    subst h2
    exact inv_sugg (inv_mkNone t) _

theorem inv_titleOnlyStage {search : SearchFun} {t : Track}
    {rd : MatchResult × Nat} (h : titleOnlyStage search t = Except.ok rd) :
    ResultInv rd.1 := by
  unfold titleOnlyStage at h
  split at h
  · cases h
  · injection h with h2
    subst h2
    exact inv_sugg (inv_mkNone t) _

theorem inv_artistStageA {search : SearchFun} {t : Track} {sq : String}
    {rd : MatchResult × Nat} (h : artistStageA search t sq = Except.ok rd) :
    ResultInv rd.1 := by
  unfold artistStageA at h
  split at h
  · cases h
  · split at h
    · injection h with h2
      subst h2
      exact inv_afterArtist t _
    · exact inv_wordsStage h

theorem inv_artistStageB {search : SearchFun} {t : Track}
    {rd : MatchResult × Nat} (h : artistStageB search t = Except.ok rd) :
    ResultInv rd.1 := by
  unfold artistStageB at h
  split at h
  · cases h
  · split at h
    · injection h with h2
      subst h2
      exact inv_afterArtist t _
    · exact inv_titleOnlyStage h

theorem inv_primaryStage {search : SearchFun} {t : Track} {candidates : List Track}
    {rd : MatchResult × Nat} (h : primaryStage search t candidates = Except.ok rd) :
    ResultInv rd.1 := by
  unfold primaryStage at h
  dsimp only at h
  split at h
  · split at h
    · cases h
    · split at h
      · injection h with h2
        subst h2
        exact inv_primaryCombine t _ candidates _ (matchTrack_none_inv t candidates)
      · injection h with h2
        subst h2
        exact inv_primaryPlain t _ candidates (matchTrack_none_inv t candidates)
  · injection h with h2
    subst h2
    exact inv_primaryPlain t _ candidates (matchTrack_none_inv t candidates)

theorem inv_processTrack {search : SearchFun} {t : Track} {query : String}
    {rd : MatchResult × Nat} (h : processTrack search t query = Except.ok rd) :
    ResultInv rd.1 := by
  unfold processTrack at h
  split at h
  · cases h
  · split at h
    · dsimp only at h
      split at h
      · split at h
        · cases h
        · split at h
          · injection h with h2
            subst h2
            exact matchTrack_none_inv t _
          · split at h
            · exact inv_artistStageA h
            · exact inv_wordsStage h
      · split at h
        · exact inv_artistStageB h
        · exact inv_titleOnlyStage h
    · exact inv_primaryStage h

theorem inv_stepTrack (search : SearchFun) (platform : Platform) (t : Track) :
    ResultInv (stepTrack search platform t).result := by
  unfold stepTrack
  dsimp only
  split
  · exact inv_mkNone t
  · split
    · next rd hp => exact inv_processTrack hp
    · exact inv_mkNone t

theorem runLoop_results (search : SearchFun) (platform : Platform)
    (ts : List Track) (i total m e : Nat) :
    (runLoop search platform ts i total m e).results =
      ts.map fun t => (stepTrack search platform t).result := by
  induction ts generalizing i m e with
  | nil => rfl
  | cons t ts ih =>
    simp only [runLoop, List.map_cons]
    rw [ih]

/-- Claim C1: for every `MatchResult` produced by `matchTrack` and by
`matchTracks`, confidence `none` implies the `matchedTrack` is absent. -/
theorem C1_confidence_invariant :
    (∀ (s : Track) (c : List Track), (matchTrack s c).confidence = Confidence.none →
      (matchTrack s c).matchedTrack = Option.none) ∧
    (∀ (search : SearchFun) (platform : Platform) (tracks : List Track),
      ∀ r ∈ (matchTracks search platform tracks).results,
        r.confidence = Confidence.none → r.matchedTrack = Option.none) := by
  refine ⟨matchTrack_none_inv, fun search platform tracks r hr => ?_⟩
  rw [matchTracks, runLoop_results] at hr
  obtain ⟨t, _, rfl⟩ := List.mem_map.mp hr
  exact inv_stepTrack search platform t

/-- Claim C1 witness: the session-level invariant applied to the errored
track of the five-track demo session. -/
theorem C1_witness : (mkNoneResult tErr).matchedTrack = Option.none :=
  C1_confidence_invariant.2 oracle3 Platform.spotify tracks5 (mkNoneResult tErr)
    (by decide) (by decide)

/-! Source-track preservation and `matchedCount`-delta characterization
of the per-track step, by branch analysis (claims C3, C4, C9). -/

theorem matchTrack_source (t : Track) (c : List Track) :
    (matchTrack t c).sourceTrack = t := by
  unfold matchTrack
  split
  · rfl
  · rfl

/-- Every non-primary branch records the source track unchanged and
increments `matchedCount` by 1 exactly when the recorded `matchedTrack`
is present. -/
def StageGood (t : Track) (rd : MatchResult × Nat) : Prop :=
  rd.1.sourceTrack = t ∧ rd.2 = (if rd.1.matchedTrack.isSome then 1 else 0)

theorem afterArtist_spec (t : Track) (ac : List Track) :
    StageGood t (afterArtistSearch t ac) := by
  unfold afterArtistSearch
  dsimp only
  split
  · exact ⟨matchTrack_source t _, rfl⟩
  · exact ⟨rfl, rfl⟩

theorem wordsStage_spec {search : SearchFun} {t : Track} {sq : String}
    {rd : MatchResult × Nat} (h : wordsStage search t sq = Except.ok rd) :
    StageGood t rd := by
  unfold wordsStage at h
  dsimp only at h
  split at h
  · split at h
    · cases h
    · injection h with h2
      subst h2
      exact ⟨matchTrack_source t _, rfl⟩
  · injection h with h2
    subst h2
    exact ⟨rfl, rfl⟩

theorem titleOnlyStage_spec {search : SearchFun} {t : Track}
    {rd : MatchResult × Nat} (h : titleOnlyStage search t = Except.ok rd) :
    StageGood t rd := by
  unfold titleOnlyStage at h
  split at h
  · cases h
  · injection h with h2
    subst h2
    exact ⟨rfl, rfl⟩

theorem artistStageA_spec {search : SearchFun} {t : Track} {sq : String}
    {rd : MatchResult × Nat} (h : artistStageA search t sq = Except.ok rd) :
    StageGood t rd := by
  unfold artistStageA at h
  split at h
  · cases h
  · split at h
    · injection h with h2
      subst h2
      exact afterArtist_spec t _
    · exact wordsStage_spec h

theorem artistStageB_spec {search : SearchFun} {t : Track}
    {rd : MatchResult × Nat} (h : artistStageB search t = Except.ok rd) :
    StageGood t rd := by
  unfold artistStageB at h
  split at h
  · cases h
  · split at h
    · injection h with h2
      subst h2
      exact afterArtist_spec t _
    · exact titleOnlyStage_spec h

theorem primaryPlain_spec (t : Track) (m0 : MatchResult) (candidates : List Track)
    (hs : m0.sourceTrack = t) : StageGood t (primaryPlain t m0 candidates) := by
  unfold primaryPlain
  dsimp only
  split
  · exact ⟨hs, rfl⟩
  · exact ⟨hs, rfl⟩

theorem supersede_not_taken {t : Track} {m0 : MatchResult} {f : List Track}
    (h : ¬ (matchTrack t f).matchedTrack.isSome = true) :
    supersedeMatch t m0 f = (m0, 0) := by
  unfold supersedeMatch
  split
  · dsimp only
    rw [if_neg h]
  · rfl

theorem supersede_taken {t : Track} {m0 : MatchResult} {f : List Track}
    (hne : f ≠ []) (h : (matchTrack t f).matchedTrack.isSome = true) :
    supersedeMatch t m0 f =
      ({ m0 with
          matchedTrack := (matchTrack t f).matchedTrack
          confidence := (matchTrack t f).confidence
          matchReason :=
            some (jsOrStr (matchTrack t f).matchReason
              "Matched by artist + title comparison") }, 1) := by
  unfold supersedeMatch
  rw [if_pos hne]
  dsimp only
  rw [if_pos h]

/-- The primary branch: the recorded source track is unchanged and the
combined increment is the final presence increment plus one more exactly
on the supersede path. -/
theorem primaryCombine_spec (t : Track) (candidates ac : List Track) :
    (primaryCombine t (matchTrack t candidates) candidates ac).1.sourceTrack = t ∧
    (primaryCombine t (matchTrack t candidates) candidates ac).2 =
      (if (primaryCombine t (matchTrack t candidates) candidates ac).1.matchedTrack.isSome
        then 1 else 0)
      + (if (matchTrack t (filterByTitleSim t.title ac)).matchedTrack.isSome
        then 1 else 0) := by
  unfold primaryCombine
  dsimp only
  by_cases hsup : (matchTrack t (filterByTitleSim t.title ac)).matchedTrack.isSome = true
  · by_cases hf : filterByTitleSim t.title ac = []
    · rw [hf] at hsup
      simp [matchTrack, mkNoneResult] at hsup
    · rw [supersede_taken hf hsup]
      dsimp only
      split
      · next hcond =>
        rw [hcond.1] at hsup
        cases hsup
      · constructor
        · exact matchTrack_source t candidates
        · simp [hsup]
  · rw [supersede_not_taken hsup]
    dsimp only
    rw [if_neg hsup]
    split
    · exact ⟨matchTrack_source t candidates, by simp⟩
    · exact ⟨matchTrack_source t candidates, by simp⟩

theorem primaryStage_spec {search : SearchFun} {t : Track} {candidates : List Track}
    {rd : MatchResult × Nat} (h : primaryStage search t candidates = Except.ok rd) :
    rd.1.sourceTrack = t ∧
    rd.2 = (if rd.1.matchedTrack.isSome then 1 else 0)
      + (if primSuperseded search t candidates then 1 else 0) := by
  unfold primaryStage at h
  dsimp only at h
  split at h
  · next hcond =>
    split at h
    · cases h
    · next ac hac =>
      split at h
      · next hne =>
        injection h with h2
        subst h2
        have hp := primaryCombine_spec t candidates ac
        refine ⟨hp.1, ?_⟩
        rw [hp.2]
        have : primSuperseded search t candidates =
            (matchTrack t (filterByTitleSim t.title ac)).matchedTrack.isSome := by
          unfold primSuperseded
          rw [hac]
          simp [hcond.1, hcond.2, hne]
        rw [this]
      · next hne =>
        injection h with h2
        subst h2
        have hp := primaryPlain_spec t _ candidates (matchTrack_source t candidates)
        refine ⟨hp.1, ?_⟩
        rw [hp.2]
        have : primSuperseded search t candidates = false := by
          unfold primSuperseded
          rw [hac]
          simp at hne
          simp [hne]
        rw [this]
        simp
  · next hcond =>
    injection h with h2
    subst h2
    have hp := primaryPlain_spec t _ candidates (matchTrack_source t candidates)
    refine ⟨hp.1, ?_⟩
    rw [hp.2]
    have : primSuperseded search t candidates = false := by
      unfold primSuperseded
      rcases not_and_or.mp hcond with hc | hc
      · simp [hc]
      · simp [Bool.not_eq_true] at hc
        simp [hc]
    rw [this]
    simp

theorem processTrack_spec {search : SearchFun} {t : Track} {query : String}
    {rd : MatchResult × Nat} (h : processTrack search t query = Except.ok rd) :
    rd.1.sourceTrack = t ∧
    rd.2 = (if rd.1.matchedTrack.isSome then 1 else 0)
      + (if querySuperseded search t query then 1 else 0) := by
  unfold processTrack at h
  split at h
  · cases h
  · next candidates hcand =>
    have hq0 : querySuperseded search t query =
        (if candidates = [] then false else primSuperseded search t candidates) := by
      unfold querySuperseded
      rw [hcand]
    split at h
    · next hc =>
      rw [hq0, if_pos hc]
      have hsg : StageGood t rd := by
        dsimp only at h
        split at h
        · split at h
          · cases h
          · split at h
            · injection h with h2
              subst h2
              exact ⟨matchTrack_source t _, rfl⟩
            · split at h
              · exact artistStageA_spec h
              · exact wordsStage_spec h
        · split at h
          · exact artistStageB_spec h
          · exact titleOnlyStage_spec h
      refine ⟨hsg.1, ?_⟩
      rw [hsg.2]
      simp
    · next hc =>
      rw [hq0, if_neg hc]
      exact primaryStage_spec h

theorem processTrack_error_superseded {search : SearchFun} {t : Track} {query : String}
    {e : Unit} (h : processTrack search t query = Except.error e) :
    querySuperseded search t query = false := by
  unfold processTrack at h
  split at h
  · next e' hcand =>
    unfold querySuperseded
    rw [hcand]
  · next candidates hcand =>
    unfold querySuperseded
    rw [hcand]
    dsimp only
    split at h
    · next hc => rw [if_pos hc]
    · next hc =>
      rw [if_neg hc]
      unfold primaryStage at h
      dsimp only at h
      split at h
      · next hcond =>
        split at h
        · next e2 hart =>
          unfold primSuperseded
          rw [hart]
          simp
        · next ac hart =>
          split at h
          · cases h
          · cases h
      · cases h

/-- Full characterization of one loop iteration: the recorded result
keeps the source track, the `matchedCount` increment is presence plus the
supersede double-count, a caught error is recorded as the bare `none`
result, and progress fires exactly for a nonempty query without error. -/
theorem stepTrack_spec (search : SearchFun) (platform : Platform) (t : Track) :
    (stepTrack search platform t).result.sourceTrack = t ∧
    (stepTrack search platform t).matchedDelta =
      (if (stepTrack search platform t).result.matchedTrack.isSome then 1 else 0)
      + (if fallbackSuperseded search platform t then 1 else 0) ∧
    ((stepTrack search platform t).isError = true →
      (stepTrack search platform t).result = mkNoneResult t) ∧
    ((stepTrack search platform t).emits = true ↔
      buildSearchQuery t platform ≠ "" ∧ (stepTrack search platform t).isError = false) := by
  unfold stepTrack
  dsimp only
  split
  · next hq =>
    have hs : fallbackSuperseded search platform t = false := by
      unfold fallbackSuperseded
      dsimp only
      rw [if_pos hq]
    rw [hs]
    exact ⟨rfl, rfl, fun hh => Bool.noConfusion hh,
      ⟨fun hh => Bool.noConfusion hh, fun hc => absurd hq hc.1⟩⟩
  · next hq =>
    have hfs : fallbackSuperseded search platform t =
        querySuperseded search t (buildSearchQuery t platform) := by
      unfold fallbackSuperseded
      dsimp only
      rw [if_neg hq]
    split
    · next rd hp =>
      have := processTrack_spec hp
      rw [hfs]
      exact ⟨this.1, this.2, fun hh => Bool.noConfusion hh,
        ⟨fun _ => ⟨hq, rfl⟩, fun _ => rfl⟩⟩
    · next e hp =>
      rw [hfs, processTrack_error_superseded hp]
      exact ⟨rfl, rfl, fun _ => rfl,
        ⟨fun hh => Bool.noConfusion hh, fun hc => Bool.noConfusion hc.2⟩⟩

theorem runLoop_errorCount (search : SearchFun) (platform : Platform)
    (ts : List Track) (i total m e : Nat) :
    (runLoop search platform ts i total m e).errorCount =
      e + ts.countP fun t => (stepTrack search platform t).isError := by
  induction ts generalizing i m e with
  | nil => simp [runLoop]
  | cons t ts ih =>
    simp only [runLoop, List.countP_cons]
    rw [ih]
    cases h : (stepTrack search platform t).isError <;> simp [h] <;> try omega

theorem runLoop_events (search : SearchFun) (platform : Platform)
    (ts : List Track) (i total m e : Nat) :
    (runLoop search platform ts i total m e).events =
      eventsSpecGo search platform total ts i m := by
  induction ts generalizing i m e with
  | nil => rfl
  | cons t ts ih =>
    simp only [runLoop, eventsSpecGo]
    have hd := (stepTrack_spec search platform t).2.1
    have he := (stepTrack_spec search platform t).2.2.2
    rw [ih, hd]
    congr 1
    by_cases hem : (stepTrack search platform t).emits = true
    · rw [if_pos hem, if_pos (he.mp hem)]
    · rw [if_neg hem, if_neg (fun hc => hem (he.mpr hc))]

/-- Claim C3: for every input track list, `matchTracks` returns exactly
one `MatchResult` per source track in input order (each carrying its
source track), never propagates a per-track search exception (the track
is recorded with confidence `none` and no `matchedTrack`, the error count
is incremented, and the loop continues); concretely, a collaborator that
throws only for track #3 of 5 still yields 5 results with track #3 at
confidence `none` and `errorCount = 1`. -/
theorem C3_session_error_handling :
    (∀ (search : SearchFun) (platform : Platform) (tracks : List Track),
      (matchTracks search platform tracks).results =
        tracks.map (fun t => (stepTrack search platform t).result) ∧
      (matchTracks search platform tracks).results.length = tracks.length ∧
      (matchTracks search platform tracks).errorCount =
        tracks.countP (fun t => (stepTrack search platform t).isError) ∧
      ∀ t : Track, (stepTrack search platform t).result.sourceTrack = t ∧
        ((stepTrack search platform t).isError = true →
          (stepTrack search platform t).result.confidence = Confidence.none ∧
          (stepTrack search platform t).result.matchedTrack = Option.none)) ∧
    (matchTracks oracle3 Platform.spotify tracks5).results.map
        (fun r => (r.confidence, r.matchedTrack.isSome)) =
      [(Confidence.high, true), (Confidence.high, true), (Confidence.none, false),
        (Confidence.high, true), (Confidence.high, true)] ∧
    (matchTracks oracle3 Platform.spotify tracks5).errorCount = 1 := by
  refine ⟨fun search platform tracks => ?_, by decide, by decide⟩
  refine ⟨runLoop_results search platform tracks 0 tracks.length 0 0, ?_, ?_, fun t => ?_⟩
  · rw [matchTracks, runLoop_results, List.length_map]
  · rw [matchTracks, runLoop_errorCount, Nat.zero_add]
  · refine ⟨(stepTrack_spec search platform t).1, fun he => ?_⟩
    rw [(stepTrack_spec search platform t).2.2.1 he]
    exact ⟨rfl, rfl⟩

/-- Claim C3 witness: the error clause of the theorem at the throwing
track of the demo session. -/
theorem C3_witness :
    (stepTrack oracle3 Platform.spotify tErr).result.confidence = Confidence.none ∧
    (stepTrack oracle3 Platform.spotify tErr).result.matchedTrack = Option.none :=
  ((C3_session_error_handling.1 oracle3 Platform.spotify tracks5).2.2.2 tErr).2 (by decide)

/-- Claim C9, counterexample: `onProgress` is NOT invoked once per source
track — a track whose search throws produces no progress event (the
session for the single throwing track emits no events though
`errorCount = 1` and its query is nonempty); moreover `matched` is not
the count of tracks with a present `matchedTrack` — the supersede
scenario reports `matched = 2` after one track with one matched result. -/
theorem C9_counterexample :
    buildSearchQuery tErr Platform.spotify = "Band Crash" ∧
    (matchTracks oracle3 Platform.spotify [tErr]).events = [] ∧
    (matchTracks oracle3 Platform.spotify [tErr]).errorCount = 1 ∧
    (matchTracks oracleSup Platform.spotify [srcSup]).events = [⟨1, 1, 2⟩] ∧
    (matchTracks oracleSup Platform.spotify [srcSup]).results.map
      (fun r => r.matchedTrack.isSome) = [true] := by
  refine ⟨by decide, by decide, by decide, by decide, by decide⟩

/-- Claim C9, amended: during a session, `onProgress` is invoked once per
source track that is neither skipped for an empty query nor aborted by a
caught search exception, in input order, with `current` the track's
1-based index, `total` the number of source tracks, and `matched` the
runner's running counter, which adds 1 for each recorded result with a
present `matchedTrack` plus 1 more for a track whose match was obtained
by the artist-only fallback superseding a `none` primary result (so such
a track is counted twice).  Formally: the emitted events equal the
reference stream `eventsSpecGo`. -/
theorem C9_progress_events :
    ∀ (search : SearchFun) (platform : Platform) (tracks : List Track),
      (matchTracks search platform tracks).events =
        eventsSpecGo search platform tracks.length tracks 0 0 :=
  fun search platform tracks => runLoop_events search platform tracks 0 tracks.length 0 0

/-! Reason-string facts for claim C4. -/

theorem matchReasonOf_mem (tS aS : ℚ) : matchReasonOf tS aS ∈
    (["Exact match", "High similarity", "Title match", "Partial match"] : List String) := by
  unfold matchReasonOf
  split
  · simp
  · split
    · simp
    · split
      · simp
      · simp

theorem bestFold_reason (src : Track) (sf : ParsedTitle) (cs : List Track) (st : BestState)
    (h : st.bestMatch.isSome = true → st.matchReason ∈
      (["Exact match", "High similarity", "Title match", "Partial match"] : List String)) :
    (bestFold src sf st cs).bestMatch.isSome = true →
      (bestFold src sf st cs).matchReason ∈
        (["Exact match", "High similarity", "Title match", "Partial match"] : List String) := by
  induction cs generalizing st with
  | nil => exact h
  | cons c cs ih =>
    rw [bestFold]
    apply ih
    split
    · exact fun _ => matchReasonOf_mem _ _
    · exact h

theorem matchTrack_reason {t : Track} {c : List Track}
    (h : (matchTrack t c).matchedTrack.isSome = true) :
    ∃ rs, (matchTrack t c).matchReason = some rs ∧
      rs ∈ (["Exact match", "High similarity", "Title match", "Partial match"] : List String) := by
  by_cases hc : c = []
  · rw [hc] at h
    simp [matchTrack, mkNoneResult] at h
  · unfold matchTrack at h ⊢
    rw [if_neg hc] at h ⊢
    dsimp only at h ⊢
    by_cases hlt : (bestFold t (sourceFields t) ⟨Option.none, 0, ""⟩ c).bestScore < 0.3
    · rw [if_pos hlt] at h
      cases h
    · rw [if_neg hlt] at h ⊢
      rw [if_pos h]
      exact ⟨_, rfl, bestFold_reason t _ c _ (fun hh => Bool.noConfusion hh) h⟩

/-- Claim C4, counterexample: in the supersede scenario every premise of
the claim holds (nonempty primary candidates, primary `matchTrack` gives
no match, usable artist, artist-only search filtered and matched), the
fallback match supersedes the `none` result — but the final `matchReason`
is the artist-stage's own classification `"Exact match"`, not the literal
`"Matched by artist + title comparison"`. -/
theorem C4_counterexample :
    buildSearchQuery srcSup Platform.spotify = "bbb aaa" ∧
    oracleSup "bbb aaa" = Except.ok [candBad] ∧
    (matchTrack srcSup [candBad]).matchedTrack = Option.none ∧
    artistUsable srcSup = true ∧
    oracleSup "bbb" = Except.ok [candGood] ∧
    (matchTrack srcSup (filterByTitleSim srcSup.title [candGood])).matchedTrack =
      some candGood ∧
    (matchTracks oracleSup Platform.spotify [srcSup]).results.map
        (fun r => (r.matchedTrack, r.confidence, r.matchReason)) =
      [(some candGood, Confidence.high, some "Exact match")] ∧
    ¬ (some "Exact match" = some "Matched by artist + title comparison") := by
  refine ⟨by decide, rfl, by decide, by decide, rfl, by decide, by decide, by decide⟩

/-- Claim C4, amended: when the primary search returns candidates but the
candidate matcher yields no `matchedTrack`, the source artist is usable
(nonempty and not `"Unknown Artist"`), and the artist-only fallback
(filtered by title similarity > 0.3, sorted descending) produces a match,
then the fallback match supersedes the primary's `none` result — its
`matchedTrack` and `confidence` are recorded — and the final
`matchReason` is the artist-stage match's OWN reason string (the literal
`"Matched by artist + title comparison"` would be used only if that
reason were absent or empty, which cannot happen for a successful
match). -/
theorem C4_artist_fallback :
    ∀ (search : SearchFun) (platform : Platform) (t : Track) (candidates ac : List Track),
      buildSearchQuery t platform ≠ "" →
      search (buildSearchQuery t platform) = Except.ok candidates →
      candidates ≠ [] →
      (matchTrack t candidates).matchedTrack = Option.none →
      artistUsable t = true →
      search (strTrim t.artist) = Except.ok ac →
      ac ≠ [] →
      (matchTrack t (filterByTitleSim t.title ac)).matchedTrack.isSome = true →
      (matchTracks search platform [t]).results = [(stepTrack search platform t).result] ∧
      (stepTrack search platform t).result.matchedTrack =
        (matchTrack t (filterByTitleSim t.title ac)).matchedTrack ∧
      (stepTrack search platform t).result.confidence =
        (matchTrack t (filterByTitleSim t.title ac)).confidence ∧
      ∃ rs, (matchTrack t (filterByTitleSim t.title ac)).matchReason = some rs ∧
        (stepTrack search platform t).result.matchReason = some rs ∧
        rs ≠ "Matched by artist + title comparison" := by
  intro search platform t candidates ac hq hs hc hm hu has hac hsome
  have hres : (matchTracks search platform [t]).results =
      [(stepTrack search platform t).result] := by
    rw [matchTracks, runLoop_results, List.map_cons, List.map_nil]
  have hf : filterByTitleSim t.title ac ≠ [] := by
    intro hnil
    rw [hnil] at hsome
    simp [matchTrack, mkNoneResult] at hsome
  have hstep : stepTrack search platform t =
      ⟨(primaryCombine t (matchTrack t candidates) candidates ac).1,
        (primaryCombine t (matchTrack t candidates) candidates ac).2, false, true⟩ := by
    unfold stepTrack
    dsimp only
    rw [if_neg hq]
    have hpt : processTrack search t (buildSearchQuery t platform) =
        Except.ok (primaryCombine t (matchTrack t candidates) candidates ac) := by
      unfold processTrack
      rw [hs]
      dsimp only
      rw [if_neg hc]
      unfold primaryStage
      dsimp only
      rw [if_pos ⟨hm, hu⟩, has]
      dsimp only
      rw [if_pos hac]
    rw [hpt]
  have hP1 : (primaryCombine t (matchTrack t candidates) candidates ac).1.matchedTrack =
        (matchTrack t (filterByTitleSim t.title ac)).matchedTrack ∧
      (primaryCombine t (matchTrack t candidates) candidates ac).1.confidence =
        (matchTrack t (filterByTitleSim t.title ac)).confidence ∧
      (primaryCombine t (matchTrack t candidates) candidates ac).1.matchReason =
        some (jsOrStr (matchTrack t (filterByTitleSim t.title ac)).matchReason
          "Matched by artist + title comparison") := by
    unfold primaryCombine
    dsimp only
    rw [supersede_taken hf hsome]
    dsimp only
    rw [if_neg (fun hcond => by rw [hcond.1] at hsome; cases hsome)]
    exact ⟨rfl, rfl, rfl⟩
  obtain ⟨rs, hrs, hmem⟩ := matchTrack_reason hsome
  have hrs' : jsOrStr (matchTrack t (filterByTitleSim t.title ac)).matchReason
      "Matched by artist + title comparison" = rs := by
    rw [hrs]
    simp only [List.mem_cons, List.mem_singleton] at hmem
    rcases hmem with rfl | rfl | rfl | rfl | hmem
    · rfl
    · rfl
    · rfl
    · rfl
    · cases hmem
  have hne : rs ≠ "Matched by artist + title comparison" := by
    simp only [List.mem_cons, List.mem_singleton] at hmem
    rcases hmem with rfl | rfl | rfl | rfl | hmem
    · decide
    · decide
    · decide
    · decide
    · cases hmem
  rw [hstep] at hres ⊢
  refine ⟨hres, hP1.1, hP1.2.1, rs, hrs, ?_, hne⟩
  rw [hP1.2.2, hrs']

/-- Claim C4 witness: the amended theorem at the concrete supersede
scenario. -/
theorem C4_witness :
    (stepTrack oracleSup Platform.spotify srcSup).result.matchedTrack =
      (matchTrack srcSup (filterByTitleSim srcSup.title [candGood])).matchedTrack :=
  (C4_artist_fallback oracleSup Platform.spotify srcSup [candBad] [candGood]
    (by decide) rfl (by decide) (by decide) (by decide) rfl (by decide) (by decide)).2.1

/-! Monotonicity machinery for claim C8. -/

theorem classify_mono {a b : ℚ} (h : a ≤ b) :
    confVal (classifyScore a) ≤ confVal (classifyScore b) := by
  unfold classifyScore confVal
  split_ifs <;> first
    | decide
    | (exfalso; simp only [ge_iff_le, not_le] at *; linarith)

theorem confVal_le_three (c : Confidence) : confVal c ≤ 3 := by
  cases c <;> decide

/-- The tier of one candidate's cumulative score never decreases when its
title or artist similarity increases, for either weight profile — even
across the withdrawal of the 0.1 title-dominance bonus at
`artistScore = 0.5`, because there the score still classifies as high. -/
theorem candidateScore_tier_mono (hasArtist : Bool) {db t a t' a' : ℚ}
    (hdb : 0 ≤ db) (ht : t ≤ t') (ha : a ≤ a') :
    confVal (classifyScore (candidateScore hasArtist db t a)) ≤
      confVal (classifyScore (candidateScore hasArtist db t' a')) := by
  by_cases hb : t > 0.85 ∧ a < 0.5
  · by_cases hb' : t' > 0.85 ∧ a' < 0.5
    · apply classify_mono
      unfold candidateScore
      rw [if_pos hb, if_pos hb']
      cases hasArtist <;> norm_num <;> nlinarith
    · have ht85 : (0.85 : ℚ) < t' := lt_of_lt_of_le hb.1 ht
      have ha5 : (0.5 : ℚ) ≤ a' := by
        by_contra hh
        push_neg at hh
        exact hb' ⟨ht85, hh⟩
      have hhigh : classifyScore (candidateScore hasArtist db t' a') = Confidence.high := by
        have hge : candidateScore hasArtist db t' a' ≥ 0.7 := by
          unfold candidateScore
          rw [if_neg hb']
          cases hasArtist <;> norm_num <;> nlinarith
        unfold classifyScore
        rw [if_pos hge]
      rw [hhigh]
      exact le_trans (confVal_le_three _) (by decide)
  · apply classify_mono
    unfold candidateScore
    rw [if_neg hb]
    by_cases hb' : t' > 0.85 ∧ a' < 0.5
    · rw [if_pos hb']
      cases hasArtist <;> norm_num <;> nlinarith
    · rw [if_neg hb']
      cases hasArtist <;> norm_num <;> nlinarith

theorem foldl_max_shift (l : List ℚ) (a b : ℚ) :
    l.foldl max (max a b) = max b (l.foldl max a) := by
  induction l generalizing a with
  | nil => exact max_comm a b
  | cons c l ih =>
    simp only [List.foldl_cons]
    rw [show max (max a b) c = max (max a c) b by
      rw [max_assoc, max_comm b c, ← max_assoc], ih]

theorem foldl_max_middle (pre post : List ℚ) (x acc : ℚ) :
    (pre ++ x :: post).foldl max acc = max x ((pre ++ post).foldl max acc) := by
  induction pre generalizing acc with
  | nil =>
    simp only [List.nil_append, List.foldl_cons]
    exact foldl_max_shift post acc x
  | cons p pre ih =>
    simp only [List.cons_append, List.foldl_cons]
    exact ih (max acc p)

theorem classify_max (x y : ℚ) :
    confVal (classifyScore (max x y)) =
      max (confVal (classifyScore x)) (confVal (classifyScore y)) := by
  rcases le_total x y with h | h
  · rw [max_eq_right h, max_eq_right (classify_mono h)]
  · rw [max_eq_left h, max_eq_left (classify_mono h)]

theorem bestFold_score (src : Track) (sf : ParsedTitle) (cs : List Track) (st : BestState) :
    (bestFold src sf st cs).bestScore = (cs.map (candScore src sf)).foldl max st.bestScore := by
  induction cs generalizing st with
  | nil => rfl
  | cons c cs ih =>
    rw [bestFold, ih]
    simp only [List.map_cons, List.foldl_cons]
    congr 1
    split
    · next hgt => exact (max_eq_right (le_of_lt hgt)).symm
    · next hgt => exact (max_eq_left (not_lt.mp hgt)).symm

/-- Claim C8: the confidence tier `matchTrack` assigns is the
classification of the maximum candidate score, and increasing the title
or artist similarity of one candidate (all other component scores held
fixed) never decreases that tier — even though the cumulative score
itself is non-monotone in artist similarity because the 0.1
title-dominance bonus is withdrawn once the artist score reaches 0.5. -/
theorem C8_confidence_monotonicity :
    (∀ (s : Track) (c : List Track),
      (matchTrack s c).confidence = classifyScore (bestScoreOf s c) ∧
      bestScoreOf s c = (c.map (candScore s (sourceFields s))).foldl max 0) ∧
    (∀ (hasArtist : Bool) (db t a t' a' : ℚ) (pre post : List ℚ),
      0 ≤ db → t ≤ t' → a ≤ a' →
      confVal (classifyScore
          ((pre ++ candidateScore hasArtist db t a :: post).foldl max 0)) ≤
        confVal (classifyScore
          ((pre ++ candidateScore hasArtist db t' a' :: post).foldl max 0))) := by
  constructor
  · intro s c
    exact ⟨matchTrack_confidence s c, bestFold_score s (sourceFields s) c _⟩
  · intro hasArtist db t a t' a' pre post hdb ht ha
    rw [foldl_max_middle, foldl_max_middle, classify_max, classify_max]
    exact max_le_max (candidateScore_tier_mono hasArtist hdb ht ha) le_rfl

/-- Claim C8 witness: the monotonicity clause at concrete component
scores, one candidate, both weight profiles exercised by the bonus
boundary (artist score 0.45 to 0.5 with a strong title). -/
theorem C8_witness :
    confVal (classifyScore
        (([] ++ candidateScore true 0 0.9 0.45 :: []).foldl max 0)) ≤
      confVal (classifyScore
        (([] ++ candidateScore true 0 0.95 0.5 :: []).foldl max 0)) :=
  C8_confidence_monotonicity.2 true 0 0.9 0.45 0.95 0.5 [] []
    (by decide) (by decide) (by decide)

end PlaylistTracker
